import Mathlib

/-!
# Verification of the AIST scheduling / dispatch / pipeline-lifecycle core

A shallow embedding, in Lean 4, of the scheduling and dispatch core of the
AIST repository:

* `process_launch_schedules` (src/dojo/aist/tasks/launch_schedule.py) — the
  Scheduler Tick that turns due cron schedules into launch-queue entries;
* `dispatch_queued_pipelines` (src/dojo/aist/tasks/pipeline_dispatcher.py) —
  the Dispatcher Tick that walks the launch queue in FIFO order under
  per-worker concurrency caps;
* the pipeline status utilities `has_unfinished_pipeline`,
  `set_pipeline_status`, `finish_pipeline`, `create_pipeline_object` and
  `stop_pipeline` (src/aist/utils/pipeline.py and
  src/dojo/aist/utils/pipeline.py — the two trees ship different variants of
  `finish_pipeline`, both embedded below);
* the orchestration task `run_sast_pipeline`
  (src/dojo/aist/tasks/pipeline.py), reduced to its lock/guard/except
  control flow, with the external build/scan/upload steps abstracted as an
  oracle.

Conventions: timestamps are `Int` (absolute instants, so Django's
naive-to-aware normalization is the identity); database ids are `Nat`;
Celery's cron evaluator `get_next_run_time` and the parameter resolution
`PipelineArguments.normalize_params` are oracle parameters (`Option`-valued:
`none` models a raised exception); Django's `save(update_fields=...)` is
modelled field-by-field, with the auto-now `updated` column modelled as a
bump counter.
-/

/-- Pipeline status enumeration (`AISTStatus` in the models; the seven values
that appear in the source). -/
inductive AISTStatus where
  | FINISHED
  | SAST_LAUNCHED
  | FINDING_POSTPROCESSING
  | UPLOADING_RESULTS
  | WAITING_CONFIRMATION_TO_PUSH_TO_AI
  | PUSH_TO_AI
  | WAITING_RESULT_FROM_AI
deriving Repr, DecidableEq

/-! ## Scheduler Tick — `process_launch_schedules`
(src/dojo/aist/tasks/launch_schedule.py, lines 11-76) -/

/-- A `LaunchSchedule` row, restricted to the fields `process_launch_schedules`
reads or writes.  `projectId`/`launchConfigId` stand for
`sched.launch_config.project` and `sched.launch_config`. -/
structure LaunchSchedule where
  id : Nat
  cron_expression : String
  enabled : Bool
  last_run_at : Option Int
  projectId : Nat
  launchConfigId : Nat
deriving Repr, DecidableEq

/-- A `PipelineLaunchQueue` row as created by the Scheduler Tick
(`dispatched` defaults to `false`; the test
`test_due_enqueues_queue_item_and_updates_last_run_at` checks this default). -/
structure PipelineLaunchQueueEntry where
  projectId : Nat
  scheduleId : Option Nat
  launchConfigId : Nat
  dispatched : Bool
deriving Repr, DecidableEq

/-- One iteration of the `for sched in schedules` loop of
`process_launch_schedules` (launch_schedule.py lines 21-76).  The loop body
touches only `sched` itself and appends at most one queue entry, so it is a
function of the single schedule.  `cronEval` is the oracle for
`sched.get_next_run_time(now=now)`; `none` models the raised exception on an
invalid cron expression (the `except` branch logs and continues).  Timestamps
are already absolute, so the naive-datetime normalization of lines 39-40 is
the identity here. -/
def process_one_schedule (cronEval : String → Int → Option Int) (now : Int)
    (sched : LaunchSchedule) : LaunchSchedule × List PipelineLaunchQueueEntry :=
  if sched.enabled = false then (sched, [])
  else
    match cronEval sched.cron_expression now with
    | none => (sched, [])
    | some due_time =>
      -- "already processed this tick" (lines 43-52)
      if (match sched.last_run_at with
          | some last => decide (due_time ≤ last)
          | none => false) then
        (sched, [])
      else
        ({ sched with last_run_at := some now },
         [{ projectId := sched.projectId,
            scheduleId := some sched.id,
            launchConfigId := sched.launchConfigId,
            dispatched := false }])

/-- The Scheduler Tick: processes every schedule in order, collecting the
updated schedule rows and the queue entries created during the tick
(in creation order). -/
def process_launch_schedules (cronEval : String → Int → Option Int) (now : Int) :
    List LaunchSchedule → List LaunchSchedule × List PipelineLaunchQueueEntry
  | [] => ([], [])
  | sched :: rest =>
    let r := process_one_schedule cronEval now sched
    let rs := process_launch_schedules cronEval now rest
    (r.1 :: rs.1, r.2 ++ rs.2)

/-- The queue entries of `es` referencing schedule id `sid`. -/
def entries_for (sid : Nat) (es : List PipelineLaunchQueueEntry) :
    List PipelineLaunchQueueEntry :=
  es.filter (fun e => e.scheduleId = some sid)

/-! ### Scheduler Tick lemmas -/

theorem process_one_schedule_fst_id (c : String → Int → Option Int) (n : Int)
    (s : LaunchSchedule) : ((process_one_schedule c n s).1).id = s.id := by
  unfold process_one_schedule
  split
  · rfl
  · cases c s.cron_expression n with
    | none => rfl
    | some d =>
      simp only []
      split
      · rfl
      · rfl

theorem process_one_schedule_snd_scheduleId (c : String → Int → Option Int) (n : Int)
    (s : LaunchSchedule) :
    ∀ e ∈ (process_one_schedule c n s).2, e.scheduleId = some s.id := by
  intro e he
  unfold process_one_schedule at he
  split at he
  · simp at he
  · split at he
    · simp at he
    · split at he
      · simp at he
      · simp only [List.mem_singleton] at he
        subst he
        rfl

theorem process_launch_schedules_append (c : String → Int → Option Int) (n : Int)
    (xs ys : List LaunchSchedule) :
    process_launch_schedules c n (xs ++ ys) =
      ((process_launch_schedules c n xs).1 ++ (process_launch_schedules c n ys).1,
       (process_launch_schedules c n xs).2 ++ (process_launch_schedules c n ys).2) := by
  induction xs with
  | nil => simp [process_launch_schedules]
  | cons x xs ih => simp [process_launch_schedules, ih]

theorem process_launch_schedules_fst (c : String → Int → Option Int) (n : Int)
    (ss : List LaunchSchedule) :
    (process_launch_schedules c n ss).1 =
      ss.map (fun s => (process_one_schedule c n s).1) := by
  induction ss with
  | nil => rfl
  | cons x xs ih => simp [process_launch_schedules, ih]

/-- Firing case of the loop body: enabled schedule, valid cron, due tick not
yet processed — one queue entry is appended and `last_run_at` becomes `now`. -/
theorem process_one_schedule_fired (c : String → Int → Option Int) (now due : Int)
    (s : LaunchSchedule) (hen : s.enabled = true)
    (hcron : c s.cron_expression now = some due)
    (hnew : ∀ l, s.last_run_at = some l → l < due) :
    process_one_schedule c now s =
      ({ s with last_run_at := some now },
       [{ projectId := s.projectId, scheduleId := some s.id,
          launchConfigId := s.launchConfigId, dispatched := false }]) := by
  unfold process_one_schedule
  rw [hen, hcron]
  simp only [Bool.true_eq_false, if_false]
  cases hl : s.last_run_at with
  | none => simp
  | some l =>
    have : l < due := hnew l hl
    simp [this, not_le.mpr this]

/-- Blocked case of the loop body: the due tick is not later than the stored
`last_run_at` marker — no entry, schedule unchanged. -/
theorem process_one_schedule_already (c : String → Int → Option Int) (now due last : Int)
    (s : LaunchSchedule) (hcron : c s.cron_expression now = some due)
    (hl : s.last_run_at = some last) (hle : due ≤ last) :
    process_one_schedule c now s = (s, []) := by
  unfold process_one_schedule
  split
  · rfl
  · rw [hcron]
    simp [hl, hle]

/-- No queue entry for schedule id `sid` is produced by a tick in which every
schedule carrying that id produces no entry. -/
theorem entries_for_eq_nil (c : String → Int → Option Int) (n : Int) (sid : Nat)
    (ss : List LaunchSchedule)
    (h : ∀ x ∈ ss, x.id = sid → (process_one_schedule c n x).2 = []) :
    entries_for sid (process_launch_schedules c n ss).2 = [] := by
  induction ss with
  | nil => rfl
  | cons x xs ih =>
    have hxs : entries_for sid (process_launch_schedules c n xs).2 = [] :=
      ih (fun y hy => h y (List.mem_cons_of_mem x hy))
    simp only [process_launch_schedules, entries_for, List.filter_append]
    rw [show (List.filter (fun e => e.scheduleId = some sid)
          (process_launch_schedules c n xs).2) =
          entries_for sid (process_launch_schedules c n xs).2 from rfl, hxs]
    rw [List.append_nil]
    by_cases hid : x.id = sid
    · rw [h x (List.mem_cons_self x xs) hid]
      rfl
    · apply List.filter_eq_nil_iff.mpr
      intro e he
      have := process_one_schedule_snd_scheduleId c n x e he
      simp [this, hid]

theorem entries_for_append (sid : Nat) (a b : List PipelineLaunchQueueEntry) :
    entries_for sid (a ++ b) = entries_for sid a ++ entries_for sid b := by
  simp [entries_for, List.filter_append]

theorem process_one_schedule_invalid_cron (c : String → Int → Option Int) (now : Int)
    (s : LaunchSchedule) (hcron : c s.cron_expression now = none) :
    process_one_schedule c now s = (s, []) := by
  unfold process_one_schedule
  split
  · rfl
  · rw [hcron]

/-- C2: one Scheduler Tick appends exactly one `PipelineLaunchQueue` entry for
an enabled schedule whose due tick is strictly later than the stored
`last_run_at` marker (or whose marker is unset), and sets `last_run_at` to the
evaluation instant `now` (not to the due tick); an immediately repeated tick
with the same `now` appends no further entry for that schedule, under the
stated assumption that the cron evaluator returns the most recent due tick
`≤ now`. -/
theorem c2_scheduler_tick_exactly_once
    (c : String → Int → Option Int) (now due : Int)
    (ss : List LaunchSchedule) (s : LaunchSchedule)
    (hnodup : (ss.map LaunchSchedule.id).Nodup)
    (hmem : s ∈ ss)
    (hen : s.enabled = true)
    (hcron : c s.cron_expression now = some due)
    (hle : due ≤ now)
    (hnew : ∀ l, s.last_run_at = some l → l < due) :
    entries_for s.id (process_launch_schedules c now ss).2 =
        [{ projectId := s.projectId, scheduleId := some s.id,
           launchConfigId := s.launchConfigId, dispatched := false }]
    ∧ ({ s with last_run_at := some now } : LaunchSchedule)
        ∈ (process_launch_schedules c now ss).1
    ∧ entries_for s.id
        (process_launch_schedules c now
          (process_launch_schedules c now ss).1).2 = [] := by
  obtain ⟨pre, post, rfl⟩ := List.append_of_mem hmem
  have hfired := process_one_schedule_fired c now due s hen hcron hnew
  rw [List.map_append] at hnodup
  have hnd := List.nodup_append.mp hnodup
  have hpre : ∀ x ∈ pre, x.id ≠ s.id := by
    intro x hx hEq
    exact hnd.2.2 (List.mem_map_of_mem _ hx) (by simp [hEq])
  have hndsp := hnd.2.1
  rw [List.map_cons, List.nodup_cons] at hndsp
  have hpost : ∀ x ∈ post, x.id ≠ s.id := by
    intro x hx hEq
    exact hndsp.1 (hEq ▸ List.mem_map_of_mem _ hx)
  have hsplit := process_launch_schedules_append c now pre (s :: post)
  have hmid : process_launch_schedules c now (s :: post) =
      (({ s with last_run_at := some now }) :: (process_launch_schedules c now post).1,
       [{ projectId := s.projectId, scheduleId := some s.id,
          launchConfigId := s.launchConfigId, dispatched := false }] ++
        (process_launch_schedules c now post).2) := by
    simp [process_launch_schedules, hfired]
  have e_pre : entries_for s.id (process_launch_schedules c now pre).2 = [] :=
    entries_for_eq_nil c now s.id pre (fun x hx h => absurd h (hpre x hx))
  have e_post : entries_for s.id (process_launch_schedules c now post).2 = [] :=
    entries_for_eq_nil c now s.id post (fun x hx h => absurd h (hpost x hx))
  refine ⟨?_, ?_, ?_⟩
  · rw [hsplit, hmid]
    simp only [entries_for_append, e_pre, e_post]
    simp [entries_for]
  · rw [hsplit, hmid]
    simp
  · rw [hsplit, hmid]
    simp only []
    have hApre : ∀ x ∈ (process_launch_schedules c now pre).1, x.id ≠ s.id := by
      intro x hx
      rw [process_launch_schedules_fst] at hx
      obtain ⟨y, hy, rfl⟩ := List.mem_map.mp hx
      rw [process_one_schedule_fst_id]
      exact hpre y hy
    have hApost : ∀ x ∈ (process_launch_schedules c now post).1, x.id ≠ s.id := by
      intro x hx
      rw [process_launch_schedules_fst] at hx
      obtain ⟨y, hy, rfl⟩ := List.mem_map.mp hx
      rw [process_one_schedule_fst_id]
      exact hpost y hy
    have hmid2 : process_one_schedule c now ({ s with last_run_at := some now }) =
        ({ s with last_run_at := some now }, []) :=
      process_one_schedule_already c now due now _ (by simpa using hcron) rfl hle
    rw [process_launch_schedules_append]
    have hmid3 : process_launch_schedules c now
        (({ s with last_run_at := some now }) ::
          (process_launch_schedules c now post).1) =
        (({ s with last_run_at := some now }) ::
           (process_launch_schedules c now (process_launch_schedules c now post).1).1,
         [] ++ (process_launch_schedules c now (process_launch_schedules c now post).1).2) := by
      simp [process_launch_schedules, hmid2]
    rw [hmid3]
    simp only [List.nil_append, entries_for_append]
    rw [entries_for_eq_nil c now s.id _ (fun x hx h => absurd h (hApre x hx)),
        entries_for_eq_nil c now s.id _ (fun x hx h => absurd h (hApost x hx))]
    rfl

theorem c2_scheduler_tick_exactly_once_witness :
    ((fun (_ : String) (t : Int) => some (t - 3)) "*/5 * * * *" 100 = some 97 ∧
     (97 : Int) ≤ 100) ∧
    (entries_for 1 (process_launch_schedules (fun _ t => some (t - 3)) 100
        [{ id := 1, cron_expression := "*/5 * * * *", enabled := true,
           last_run_at := none, projectId := 7, launchConfigId := 3 }]).2 =
      [{ projectId := 7, scheduleId := some 1, launchConfigId := 3, dispatched := false }]
    ∧ ({ id := 1, cron_expression := "*/5 * * * *", enabled := true,
         last_run_at := some 100, projectId := 7, launchConfigId := 3 } : LaunchSchedule)
        ∈ (process_launch_schedules (fun _ t => some (t - 3)) 100
          [{ id := 1, cron_expression := "*/5 * * * *", enabled := true,
             last_run_at := none, projectId := 7, launchConfigId := 3 }]).1
    ∧ entries_for 1
        (process_launch_schedules (fun _ t => some (t - 3)) 100
          (process_launch_schedules (fun _ t => some (t - 3)) 100
            [{ id := 1, cron_expression := "*/5 * * * *", enabled := true,
               last_run_at := none, projectId := 7, launchConfigId := 3 }]).1).2 = []) :=
  ⟨⟨by norm_num, by norm_num⟩,
   c2_scheduler_tick_exactly_once (fun _ t => some (t - 3)) 100 97
     [{ id := 1, cron_expression := "*/5 * * * *", enabled := true,
        last_run_at := none, projectId := 7, launchConfigId := 3 }]
     { id := 1, cron_expression := "*/5 * * * *", enabled := true,
       last_run_at := none, projectId := 7, launchConfigId := 3 }
     (by simp) (by simp) rfl (by norm_num) (by norm_num)
     (fun l hl => by simp at hl)⟩

/-- C9: a schedule whose cron evaluation raises (invalid cron expression) is
skipped by the Scheduler Tick: it appears unchanged in the output (so
`last_run_at` and `enabled` are untouched), it contributes no queue entry, and
every other schedule of the same tick is processed exactly as it would be on
its own (the embedding is a total function, so no exception propagates). -/
theorem c9_invalid_cron_logged_and_skipped
    (c : String → Int → Option Int) (now : Int)
    (pre post : List LaunchSchedule) (s : LaunchSchedule)
    (_hen : s.enabled = true)
    (hcron : c s.cron_expression now = none) :
    process_launch_schedules c now (pre ++ s :: post) =
      ((process_launch_schedules c now pre).1 ++
         s :: (process_launch_schedules c now post).1,
       (process_launch_schedules c now pre).2 ++
         (process_launch_schedules c now post).2) := by
  have h1 : process_one_schedule c now s = (s, []) :=
    process_one_schedule_invalid_cron c now s hcron
  rw [process_launch_schedules_append]
  simp [process_launch_schedules, h1]

theorem c9_invalid_cron_logged_and_skipped_witness :
    ((fun (e : String) (t : Int) => if e = "not a cron" then none else some t)
        "not a cron" 50 = none) ∧
    process_launch_schedules
        (fun (e : String) (t : Int) => if e = "not a cron" then none else some t) 50
        ([{ id := 1, cron_expression := "* * * * *", enabled := true,
            last_run_at := none, projectId := 1, launchConfigId := 1 }] ++
         ({ id := 2, cron_expression := "not a cron", enabled := true,
            last_run_at := some 40, projectId := 2, launchConfigId := 2 } : LaunchSchedule) ::
         [{ id := 3, cron_expression := "* * * * *", enabled := true,
            last_run_at := none, projectId := 3, launchConfigId := 3 }]) =
      ((process_launch_schedules
          (fun (e : String) (t : Int) => if e = "not a cron" then none else some t) 50
          [{ id := 1, cron_expression := "* * * * *", enabled := true,
             last_run_at := none, projectId := 1, launchConfigId := 1 }]).1 ++
        ({ id := 2, cron_expression := "not a cron", enabled := true,
           last_run_at := some 40, projectId := 2, launchConfigId := 2 } : LaunchSchedule) ::
        (process_launch_schedules
          (fun (e : String) (t : Int) => if e = "not a cron" then none else some t) 50
          [{ id := 3, cron_expression := "* * * * *", enabled := true,
             last_run_at := none, projectId := 3, launchConfigId := 3 }]).1,
       (process_launch_schedules
          (fun (e : String) (t : Int) => if e = "not a cron" then none else some t) 50
          [{ id := 1, cron_expression := "* * * * *", enabled := true,
             last_run_at := none, projectId := 1, launchConfigId := 1 }]).2 ++
       (process_launch_schedules
          (fun (e : String) (t : Int) => if e = "not a cron" then none else some t) 50
          [{ id := 3, cron_expression := "* * * * *", enabled := true,
             last_run_at := none, projectId := 3, launchConfigId := 3 }]).2) :=
  ⟨by decide,
   c9_invalid_cron_logged_and_skipped _ 50 _ _ _ rfl (by decide)⟩

/-! ## Dispatcher Tick — `dispatch_queued_pipelines`
(src/dojo/aist/tasks/pipeline_dispatcher.py, lines 15-131) -/

/-- The schedule fields read by the dispatcher (`item.schedule`). -/
structure DispatchSchedule where
  id : Nat
  enabled : Bool
  max_concurrent_per_worker : Int
deriving Repr, DecidableEq

/-- A `PipelineLaunchQueue` row as seen by the dispatcher. -/
structure QueueItem where
  id : Nat
  created : Int
  schedule : Option DispatchSchedule
  dispatched : Bool
  dispatched_at : Option Int
  pipelineId : Option Nat
deriving Repr, DecidableEq

/-- An `AISTPipeline` row, restricted to the fields relevant to creation and
the one-non-terminal-run-per-version invariant. -/
structure Pipeline where
  id : Nat
  projectVersionId : Nat
  status : AISTStatus
deriving Repr, DecidableEq

/-- `has_unfinished_pipeline` (src/dojo/aist/utils/pipeline.py lines 21-26 and
src/aist/utils/pipeline.py lines 21-26, identical): does any pipeline of this
project version have a status other than `FINISHED`? -/
def has_unfinished_pipeline (pipelines : List Pipeline) (projectVersionId : Nat) : Bool :=
  pipelines.any fun p =>
    decide (p.projectVersionId = projectVersionId ∧ p.status ≠ AISTStatus.FINISHED)

/-- `create_pipeline_object` (both utils/pipeline.py variants): a new pipeline
row is created with `status=AISTStatus.FINISHED`. -/
def create_pipeline_object (pid : Nat) (projectVersionId : Nat) : Pipeline :=
  { id := pid, projectVersionId := projectVersionId, status := AISTStatus.FINISHED }

/-- Worker snapshot (pipeline_dispatcher.py lines 28-39): per worker, the
number of active tasks named `dojo.aist.tasks.pipeline.run_sast_pipeline`. -/
def countRunningPerWorker (active : List (Nat × List String)) : List (Nat × Nat) :=
  active.map fun wt =>
    (wt.1, (wt.2.filter
      (fun t => t = "dojo.aist.tasks.pipeline.run_sast_pipeline")).length)

/-- Lines 79-83: walk the per-worker counts sorted ascending by count and
return the first worker whose count is under the limit (the concrete worker is
used only for logging; control flow depends only on whether one exists). -/
def availableWorker (ws : List (Nat × Nat)) (limit : Int) : Option (Nat × Nat) :=
  (List.insertionSort (fun a b => a.2 ≤ b.2) ws).find? fun wc => (wc.2 : Int) < limit

/-- Lines 126-131: optimistically increment the in-memory count of the first
worker (in mapping order) whose count is below the limit. -/
def bumpFirstAvailable (limit : Int) : List (Nat × Nat) → List (Nat × Nat)
  | [] => []
  | wc :: rest =>
    if (wc.2 : Int) < limit then (wc.1, wc.2 + 1) :: rest
    else wc :: bumpFirstAvailable limit rest

/-- The per-item decision of the dispatcher loop body (lines 55-104):
`skip` = `continue` (no schedule / disabled schedule / cap below 1 /
parameter-resolution failure), `stop` = `break` (a cap is set, workers are
inspectable, and none has spare capacity), `dispatch pv` = admit and launch
against the resolved project version `pv`.  `resolve` is the oracle for
`PipelineArguments.normalize_params` plus the `AISTProjectVersion` lookup
(lines 93-104); `none` models the caught exception. -/
inductive DispatchDecision where
  | skip
  | stop
  | dispatch (pv : Nat)
deriving Repr, DecidableEq

def dispatch_decision (resolve : QueueItem → Option Nat) (ws : List (Nat × Nat))
    (item : QueueItem) : DispatchDecision :=
  match item.schedule with
  | none => .skip
  | some sched =>
    if sched.enabled = false then .skip
    else if sched.max_concurrent_per_worker < 1 then .skip
    else if ws ≠ [] ∧ availableWorker ws sched.max_concurrent_per_worker = none then .stop
    else
      match resolve item with
      | none => .skip
      | some pv => .dispatch pv

/-- The item's schedule cap (`limit` in the source; only read on dispatch,
where a schedule is always present). -/
def itemLimit (item : QueueItem) : Int :=
  match item.schedule with
  | none => 0
  | some sched => sched.max_concurrent_per_worker

/-- Outcome of one Dispatcher Tick: the final in-memory worker counts, the
pipeline table, the processed queue rows (in considered order, dispatched ones
updated), the admitted rows (originals, in admission order), and the row at
which a capacity wall stopped the iteration, if any. -/
structure DispatchResult where
  workers : List (Nat × Nat)
  pipelines : List Pipeline
  queue : List QueueItem
  accepted : List QueueItem
  stopped : Option QueueItem
deriving Repr, DecidableEq

/-- The `for item in queued` loop of `dispatch_queued_pipelines`
(lines 55-131).  On `skip` the row passes through unchanged; on `stop` the
remaining rows (current one included) are left untouched and iteration ends;
on `dispatch pv` a pipeline is created (`create_pipeline_object`, fresh id
`nextId`), its run task is started, the row is marked dispatched and linked,
and the first below-cap worker count is optimistically bumped (lines 106-131). -/
def dispatchLoop (resolve : QueueItem → Option Nat) (now : Int) :
    List QueueItem → Nat → List (Nat × Nat) → List Pipeline → DispatchResult
  | [], _, ws, pls =>
    { workers := ws, pipelines := pls, queue := [], accepted := [], stopped := none }
  | item :: rest, nextId, ws, pls =>
    match dispatch_decision resolve ws item with
    | .stop =>
      { workers := ws, pipelines := pls, queue := item :: rest,
        accepted := [], stopped := some item }
    | .skip =>
      let r := dispatchLoop resolve now rest nextId ws pls
      { r with queue := item :: r.queue }
    | .dispatch pv =>
      let p := create_pipeline_object nextId pv
      let item2 := { item with
        dispatched := true
        dispatched_at := some now
        pipelineId := some p.id }
      let ws2 := if 0 < itemLimit item ∧ ws ≠ [] then
          bumpFirstAvailable (itemLimit item) ws else ws
      let r := dispatchLoop resolve now rest (nextId + 1) ws2 (pls ++ [p])
      { r with queue := item2 :: r.queue, accepted := item :: r.accepted }

/-- Lines 49-54: the undispatched queue rows in FIFO (`created`) order. -/
def queuedItems (queue : List QueueItem) : List QueueItem :=
  List.insertionSort (fun a b => a.created ≤ b.created)
    (queue.filter fun i => i.dispatched = false)

/-- The Dispatcher Tick: snapshot worker load from the `active` task map, then
run the loop over the undispatched queue in FIFO order. -/
def dispatch_queued_pipelines (resolve : QueueItem → Option Nat) (now : Int)
    (active : List (Nat × List String)) (queue : List QueueItem)
    (pipelines : List Pipeline) (nextId : Nat) : DispatchResult :=
  dispatchLoop resolve now (queuedItems queue) nextId
    (countRunningPerWorker active) pipelines

/-! ### Dispatcher Tick lemmas -/

theorem availableWorker_eq_none_iff (ws : List (Nat × Nat)) (limit : Int) :
    availableWorker ws limit = none ↔ ∀ wc ∈ ws, ¬((wc.2 : Int) < limit) := by
  unfold availableWorker
  rw [List.find?_eq_none]
  constructor
  · intro h wc hm
    have h2 := h wc
      (((List.perm_insertionSort (fun a b => a.2 ≤ b.2) ws).mem_iff).mpr hm)
    simpa using h2
  · intro h wc hm
    have h2 := h wc
      (((List.perm_insertionSort (fun a b => a.2 ≤ b.2) ws).mem_iff).mp hm)
    simpa using h2

instance : IsTotal QueueItem (fun a b => a.created ≤ b.created) :=
  ⟨fun a b => Int.le_total a.created b.created⟩

instance : IsTrans QueueItem (fun a b => a.created ≤ b.created) :=
  ⟨fun _ _ _ h h2 => le_trans h h2⟩

theorem queuedItems_sorted (queue : List QueueItem) :
    List.Sorted (fun a b => a.created ≤ b.created) (queuedItems queue) :=
  List.sorted_insertionSort _ _

/-- The loop admits a subsequence of the considered items, and when it stops
at a capacity wall it admits nothing at or after the stopping item. -/
theorem dispatchLoop_fifo (resolve : QueueItem → Option Nat) (now : Int)
    (items : List QueueItem) :
    ∀ (nextId : Nat) (ws : List (Nat × Nat)) (pls : List Pipeline),
      (dispatchLoop resolve now items nextId ws pls).accepted.Sublist items ∧
      (∀ x, (dispatchLoop resolve now items nextId ws pls).stopped = some x →
        ∃ p q, items = p ++ x :: q ∧
          (dispatchLoop resolve now items nextId ws pls).accepted.Sublist p) := by
  induction items with
  | nil =>
    intro nextId ws pls
    constructor
    · simp [dispatchLoop]
    · intro x hx
      simp [dispatchLoop] at hx
  | cons item rest ih =>
    intro nextId ws pls
    cases hd : dispatch_decision resolve ws item with
    | stop =>
      constructor
      · simp [dispatchLoop, hd]
      · intro x hx
        simp only [dispatchLoop, hd] at hx ⊢
        simp at hx
        exact ⟨[], rest, by simp [hx], by simp⟩
    | skip =>
      constructor
      · simp only [dispatchLoop, hd]
        exact (ih nextId ws pls).1.cons _
      · intro x hx
        simp only [dispatchLoop, hd] at hx ⊢
        obtain ⟨p, q, hpq, hsub⟩ := (ih nextId ws pls).2 x hx
        exact ⟨item :: p, q, by simp [hpq], hsub.cons _⟩
    | dispatch pv =>
      constructor
      · simp only [dispatchLoop, hd]
        exact ((ih (nextId + 1) _ _).1).cons₂ _
      · intro x hx
        simp only [dispatchLoop, hd] at hx ⊢
        obtain ⟨p, q, hpq, hsub⟩ := (ih (nextId + 1) _ _).2 x hx
        exact ⟨item :: p, q, by simp [hpq], hsub.cons₂ _⟩

/-- C3: within one Dispatcher Tick, queue entries are considered and admitted
in non-decreasing `created` (FIFO) order — the admitted rows form a
subsequence of the FIFO-sorted undispatched queue, hence are themselves sorted
by `created` — and when an entry is denied admission because no worker has
spare capacity under its cap the entire iteration stops there: every entry at
or after the stopping row (for any schedule) is left unadmitted. -/
theorem c3_dispatcher_fifo_and_capacity_wall
    (resolve : QueueItem → Option Nat) (now : Int)
    (active : List (Nat × List String)) (queue : List QueueItem)
    (pipelines : List Pipeline) (nextId : Nat) :
    (dispatch_queued_pipelines resolve now active queue pipelines nextId).accepted.Sublist
        (queuedItems queue)
    ∧ List.Sorted (fun a b => a.created ≤ b.created)
        (dispatch_queued_pipelines resolve now active queue pipelines nextId).accepted
    ∧ (∀ x,
        (dispatch_queued_pipelines resolve now active queue pipelines nextId).stopped =
            some x →
        ∃ p q, queuedItems queue = p ++ x :: q ∧
          (dispatch_queued_pipelines resolve now active queue pipelines nextId).accepted.Sublist
            p) := by
  have h := dispatchLoop_fifo resolve now (queuedItems queue) nextId
    (countRunningPerWorker active) pipelines
  refine ⟨h.1, ?_, h.2⟩
  exact (queuedItems_sorted queue).sublist h.1

/-! ### Concrete sample data (used by closed witnesses and counterexamples) -/

def sampleSched : DispatchSchedule :=
  { id := 10, enabled := true, max_concurrent_per_worker := 1 }

def sampleItem1 : QueueItem :=
  { id := 1, created := 5, schedule := some sampleSched, dispatched := false,
    dispatched_at := none, pipelineId := none }

def sampleItem2 : QueueItem :=
  { sampleItem1 with id := 2, created := 7 }

def sampleNullItem : QueueItem :=
  { sampleItem1 with id := 3, created := 1, schedule := none }

def sampleBusyActive : List (Nat × List String) :=
  [(1, ["dojo.aist.tasks.pipeline.run_sast_pipeline"])]

def sampleIdleActive : List (Nat × List String) := [(1, [])]

theorem c3_dispatcher_fifo_and_capacity_wall_witness :
    (dispatch_queued_pipelines (fun _ => some 1) 0 sampleBusyActive
        [sampleItem1, sampleItem2] [] 100).accepted.Sublist
        (queuedItems [sampleItem1, sampleItem2])
    ∧ List.Sorted (fun a b => a.created ≤ b.created)
        (dispatch_queued_pipelines (fun _ => some 1) 0 sampleBusyActive
          [sampleItem1, sampleItem2] [] 100).accepted
    ∧ (∃ p q, queuedItems [sampleItem1, sampleItem2] = p ++ sampleItem1 :: q ∧
        (dispatch_queued_pipelines (fun _ => some 1) 0 sampleBusyActive
          [sampleItem1, sampleItem2] [] 100).accepted.Sublist p) :=
  ⟨(c3_dispatcher_fifo_and_capacity_wall (fun _ => some 1) 0 sampleBusyActive
      [sampleItem1, sampleItem2] [] 100).1,
   (c3_dispatcher_fifo_and_capacity_wall (fun _ => some 1) 0 sampleBusyActive
      [sampleItem1, sampleItem2] [] 100).2.1,
   (c3_dispatcher_fifo_and_capacity_wall (fun _ => some 1) 0 sampleBusyActive
      [sampleItem1, sampleItem2] [] 100).2.2 sampleItem1 (by decide)⟩

/-- Inversion of the loop decision: an admission implies an enabled schedule
with cap at least 1, a passed capacity check, and successful resolution. -/
theorem dispatch_decision_eq_dispatch (resolve : QueueItem → Option Nat)
    (ws : List (Nat × Nat)) (item : QueueItem) (pv : Nat)
    (h : dispatch_decision resolve ws item = .dispatch pv) :
    ∃ sched, item.schedule = some sched ∧ sched.enabled = true ∧
      ¬(sched.max_concurrent_per_worker < 1) ∧
      ¬(ws ≠ [] ∧ availableWorker ws sched.max_concurrent_per_worker = none) ∧
      resolve item = some pv := by
  unfold dispatch_decision at h
  split at h
  · exact absurd h (by simp)
  next sched hs =>
    split at h
    next h1 => exact absurd h (by simp)
    next h1 =>
      split at h
      next h2 => exact absurd h (by simp)
      next h2 =>
        split at h
        next h3 => exact absurd h (by simp)
        next h3 =>
          split at h
          next hr => exact absurd h (by simp)
          next pv2 hr =>
            have hpv : pv2 = pv := by simpa using h
            refine ⟨sched, hs, ?_, h2, h3, by rw [hr, hpv]⟩
            revert h1
            cases sched.enabled <;> simp

/-- C4 fails on the code: an undispatched queue entry with a null schedule
reference is not dispatched by the tick at all — with an idle worker
available, the tick admits nothing, creates no pipeline, and leaves the entry
undispatched (the loop `continue`s on `not sched`; the repository's own test
`test_skips_items_without_schedule_or_disabled` expects exactly this). -/
theorem c4_null_schedule_counterexample :
    sampleNullItem.schedule = none ∧ sampleNullItem.dispatched = false ∧
    (dispatch_queued_pipelines (fun _ => some 1) 0 sampleIdleActive
        [sampleNullItem] [] 100) =
      { workers := [(1, 0)], pipelines := [], queue := [sampleNullItem],
        accepted := [], stopped := none } := by
  refine ⟨rfl, rfl, ?_⟩
  decide

theorem queuedItems_dispatched_false (queue : List QueueItem) :
    ∀ i ∈ queuedItems queue, i.dispatched = false := by
  intro i hi
  unfold queuedItems at hi
  have hperm := List.perm_insertionSort (fun a b : QueueItem => a.created ≤ b.created)
    (queue.filter fun i => i.dispatched = false)
  have hm := hperm.mem_iff.mp hi
  simpa using (List.mem_filter.mp hm).2

theorem dispatchLoop_queue_null_undispatched (resolve : QueueItem → Option Nat)
    (now : Int) (items : List QueueItem) :
    ∀ (nextId : Nat) (ws : List (Nat × Nat)) (pls : List Pipeline),
      (∀ i ∈ items, i.dispatched = false) →
      ∀ x ∈ (dispatchLoop resolve now items nextId ws pls).queue,
        x.schedule = none → x.dispatched = false := by
  induction items with
  | nil =>
    intro nextId ws pls hall x hx
    simp [dispatchLoop] at hx
  | cons item rest ih =>
    intro nextId ws pls hall x hx hnull
    cases hd : dispatch_decision resolve ws item with
    | stop =>
      simp only [dispatchLoop, hd] at hx
      exact hall x hx
    | skip =>
      simp only [dispatchLoop, hd] at hx
      rcases List.mem_cons.mp hx with h | h
      · exact hall x (h ▸ List.mem_cons_self item rest)
      · exact ih _ _ _ (fun i hi => hall i (List.mem_cons_of_mem _ hi)) x h hnull
    | dispatch pv =>
      simp only [dispatchLoop, hd] at hx
      rcases List.mem_cons.mp hx with h | h
      · obtain ⟨sched, hs, -⟩ := dispatch_decision_eq_dispatch resolve ws item pv hd
        rw [h] at hnull
        simp [hs] at hnull
      · exact ih _ _ _ (fun i hi => hall i (List.mem_cons_of_mem _ hi)) x h hnull

/-- C4 amended: an undispatched entry whose schedule reference is null is
skipped (left undispatched, never admitted, no capacity check and no
dispatch), and the tick continues with the remaining entries unchanged; in
particular every null-schedule row in the tick's outcome is still
undispatched. -/
theorem c4_amended_null_schedule_skipped (resolve : QueueItem → Option Nat) (now : Int) :
    (∀ item rest nextId ws pls, item.schedule = none →
      dispatchLoop resolve now (item :: rest) nextId ws pls =
        { dispatchLoop resolve now rest nextId ws pls with
          queue := item :: (dispatchLoop resolve now rest nextId ws pls).queue })
    ∧ (∀ active queue pls nextId x,
        x ∈ (dispatch_queued_pipelines resolve now active queue pls nextId).queue →
        x.schedule = none → x.dispatched = false) := by
  constructor
  · intro item rest nextId ws pls h
    simp [dispatchLoop, dispatch_decision, h]
  · intro active queue pls nextId x hx hnull
    have hall : ∀ i ∈ queuedItems queue, i.dispatched = false :=
      queuedItems_dispatched_false queue
    exact dispatchLoop_queue_null_undispatched resolve now (queuedItems queue)
      nextId (countRunningPerWorker active) pls hall x hx hnull

theorem c4_amended_null_schedule_skipped_witness :
    sampleNullItem.schedule = none ∧
    dispatchLoop (fun _ => some 1) 0 (sampleNullItem :: [sampleItem1]) 100 [(1, 0)] [] =
      { dispatchLoop (fun _ => some 1) 0 [sampleItem1] 100 [(1, 0)] [] with
        queue := sampleNullItem ::
          (dispatchLoop (fun _ => some 1) 0 [sampleItem1] 100 [(1, 0)] []).queue } :=
  ⟨rfl, (c4_amended_null_schedule_skipped (fun _ => some 1) 0).1 sampleNullItem
    [sampleItem1] 100 [(1, 0)] [] rfl⟩

/-! ### C1 — the one-non-terminal-pipeline-per-version precondition -/

/-- Responses of the manual start endpoint relevant to the guard. -/
inductive StartResponse where
  | conflict405
  | badRequest400
  | created201 (p : Pipeline)
deriving Repr, DecidableEq

/-- The pipeline-relevant core of `PipelineStartAPI.post`
(src/dojo/aist/api/pipelines.py lines 79-139): after validation and
permission checks, the `has_unfinished_pipeline` precondition returns 405
before any pipeline is created; then the `ai_filter` validation (lines
100-112, abstracted as `aiFilterOk`) may return 400; otherwise a pipeline is
created via `create_pipeline_object` and its run task started. -/
def pipeline_start_post (pipelines : List Pipeline) (projectVersionId : Nat)
    (aiFilterOk : Bool) (nextId : Nat) : List Pipeline × StartResponse :=
  if has_unfinished_pipeline pipelines projectVersionId then
    (pipelines, .conflict405)
  else if aiFilterOk = false then
    (pipelines, .badRequest400)
  else
    (pipelines ++ [create_pipeline_object nextId projectVersionId],
     .created201 (create_pipeline_object nextId projectVersionId))

def sampleRunningPipeline : Pipeline :=
  { id := 0, projectVersionId := 1, status := AISTStatus.SAST_LAUNCHED }

/-- C1 fails on the code: the scheduled dispatcher path performs no
`has_unfinished_pipeline` precondition check.  Concretely: with a non-terminal
pipeline already stored for project version 1, an idle worker and a queued
entry resolving to that same version, `dispatch_queued_pipelines` still admits
the entry and creates a second pipeline for version 1. -/
theorem c1_dispatcher_no_precondition_counterexample :
    has_unfinished_pipeline [sampleRunningPipeline] 1 = true ∧
    (dispatch_queued_pipelines (fun _ => some 1) 0 sampleIdleActive [sampleItem1]
        [sampleRunningPipeline] 100).pipelines =
      [sampleRunningPipeline, create_pipeline_object 100 1] ∧
    (dispatch_queued_pipelines (fun _ => some 1) 0 sampleIdleActive [sampleItem1]
        [sampleRunningPipeline] 100).accepted = [sampleItem1] := by
  refine ⟨rfl, ?_, ?_⟩ <;> decide

/-- C1 amended: the `has_unfinished_pipeline` precondition is enforced on the
manual start path — when a non-terminal pipeline exists for the version the
endpoint returns 405 and creates nothing — but the scheduled dispatcher path
performs no such check: its admissions, queue updates and stopping point are
entirely independent of the pipeline table contents. -/
theorem c1_amended_guard_manual_only :
    (∀ (pipelines : List Pipeline) (pv : Nat) (ok : Bool) (nid : Nat),
      has_unfinished_pipeline pipelines pv = true →
      pipeline_start_post pipelines pv ok nid = (pipelines, .conflict405))
    ∧ (∀ (resolve : QueueItem → Option Nat) (now : Int) (items : List QueueItem)
        (nextId : Nat) (ws : List (Nat × Nat)) (plsA plsB : List Pipeline),
        (dispatchLoop resolve now items nextId ws plsA).accepted =
          (dispatchLoop resolve now items nextId ws plsB).accepted ∧
        (dispatchLoop resolve now items nextId ws plsA).queue =
          (dispatchLoop resolve now items nextId ws plsB).queue ∧
        (dispatchLoop resolve now items nextId ws plsA).stopped =
          (dispatchLoop resolve now items nextId ws plsB).stopped) := by
  constructor
  · intro pipelines pv ok nid h
    simp [pipeline_start_post, h]
  · intro resolve now items
    induction items with
    | nil =>
      intro nextId ws plsA plsB
      simp [dispatchLoop]
    | cons item rest ih =>
      intro nextId ws plsA plsB
      cases hd : dispatch_decision resolve ws item with
      | stop => simp [dispatchLoop, hd]
      | skip =>
        have h := ih nextId ws plsA plsB
        simp only [dispatchLoop, hd]
        exact ⟨h.1, by rw [h.2.1], h.2.2⟩
      | dispatch pv =>
        have h := ih (nextId + 1)
          (if 0 < itemLimit item ∧ ws ≠ [] then
            bumpFirstAvailable (itemLimit item) ws else ws)
          (plsA ++ [create_pipeline_object nextId pv])
          (plsB ++ [create_pipeline_object nextId pv])
        simp only [dispatchLoop, hd]
        exact ⟨by rw [h.1], by rw [h.2.1], h.2.2⟩

theorem c1_amended_guard_manual_only_witness :
    has_unfinished_pipeline [sampleRunningPipeline] 1 = true ∧
    pipeline_start_post [sampleRunningPipeline] 1 true 100 =
      ([sampleRunningPipeline], .conflict405) :=
  ⟨by decide,
   c1_amended_guard_manual_only.1 [sampleRunningPipeline] 1 true 100 (by decide)⟩

/-! ### C10 — a single tick does not over-admit past the cap -/

/-- Total spare capacity of the snapshot under a uniform cap `L`: the sum over
workers of `L` minus the worker's snapshotted count (truncated at zero). -/
def spareCapacity (L : Nat) (ws : List (Nat × Nat)) : Nat :=
  (ws.map fun wc => L - wc.2).sum

theorem bumpFirstAvailable_fst_and_sum (L : Nat) (ws : List (Nat × Nat))
    (h : ∃ wc ∈ ws, (wc.2 : Int) < (L : Int)) :
    (bumpFirstAvailable (L : Int) ws).map Prod.fst = ws.map Prod.fst ∧
    ((bumpFirstAvailable (L : Int) ws).map Prod.snd).sum
      = (ws.map Prod.snd).sum + 1 := by
  induction ws with
  | nil => simp at h
  | cons wc rest ih =>
    by_cases hc : (wc.2 : Int) < (L : Int)
    · constructor
      · simp [bumpFirstAvailable, hc]
      · simp [bumpFirstAvailable, hc]
        omega
    · have hex : ∃ wc2 ∈ rest, (wc2.2 : Int) < (L : Int) := by
        obtain ⟨wc2, hm, hlt⟩ := h
        rcases List.mem_cons.mp hm with rfl | hm2
        · exact absurd hlt hc
        · exact ⟨wc2, hm2, hlt⟩
      have ihh := ih hex
      constructor
      · simp [bumpFirstAvailable, hc, ihh.1]
      · simp [bumpFirstAvailable, hc, ihh.2]
        omega

theorem bumpFirstAvailable_spare (L : Nat) (ws : List (Nat × Nat))
    (h : ∃ wc ∈ ws, (wc.2 : Int) < (L : Int)) :
    spareCapacity L (bumpFirstAvailable (L : Int) ws) + 1 = spareCapacity L ws := by
  induction ws with
  | nil => simp at h
  | cons wc rest ih =>
    by_cases hc : (wc.2 : Int) < (L : Int)
    · have hcn : wc.2 < L := by exact_mod_cast hc
      simp [bumpFirstAvailable, hc, spareCapacity]
      omega
    · have hex : ∃ wc2 ∈ rest, (wc2.2 : Int) < (L : Int) := by
        obtain ⟨wc2, hm, hlt⟩ := h
        rcases List.mem_cons.mp hm with rfl | hm2
        · exact absurd hlt hc
        · exact ⟨wc2, hm2, hlt⟩
      have ihh := ih hex
      simp only [bumpFirstAvailable, if_neg hc, spareCapacity, List.map_cons,
        List.sum_cons] at ihh ⊢
      omega

theorem bumpFirstAvailable_ne_nil (limit : Int) (ws : List (Nat × Nat))
    (h : ws ≠ []) : bumpFirstAvailable limit ws ≠ [] := by
  cases ws with
  | nil => exact absurd rfl h
  | cons wc rest =>
    simp only [bumpFirstAvailable]
    split <;> simp

theorem dispatchLoop_capacity_bound (resolve : QueueItem → Option Nat) (now : Int)
    (L : Nat) (items : List QueueItem) :
    ∀ (nextId : Nat) (ws : List (Nat × Nat)) (pls : List Pipeline),
      ws ≠ [] →
      (∀ i ∈ items, ∀ sch, i.schedule = some sch →
        sch.max_concurrent_per_worker = (L : Int)) →
      (dispatchLoop resolve now items nextId ws pls).accepted.length ≤
        spareCapacity L ws := by
  induction items with
  | nil =>
    intro nextId ws pls _ _
    simp [dispatchLoop]
  | cons item rest ih =>
    intro nextId ws pls hws hcap
    cases hd : dispatch_decision resolve ws item with
    | stop => simp [dispatchLoop, hd]
    | skip =>
      simp only [dispatchLoop, hd]
      exact ih nextId ws pls hws (fun i hi => hcap i (List.mem_cons_of_mem _ hi))
    | dispatch pv =>
      obtain ⟨sched, hs, hen, hlim, hcapchk, hres⟩ :=
        dispatch_decision_eq_dispatch resolve ws item pv hd
      have hL : sched.max_concurrent_per_worker = (L : Int) :=
        hcap item (List.mem_cons_self _ _) sched hs
      have hex : ∃ wc ∈ ws, (wc.2 : Int) < (L : Int) := by
        by_contra hc
        push_neg at hc
        refine hcapchk ⟨hws, (availableWorker_eq_none_iff ws _).mpr ?_⟩
        intro wc hm
        rw [hL]
        exact not_lt.mpr (hc wc hm)
      have hLpos : (0 : Int) < (L : Int) := by omega
      have hil : itemLimit item = (L : Int) := by
        unfold itemLimit
        rw [hs]
        exact hL
      simp only [dispatchLoop, hd, hil, hLpos, hws, ne_eq, not_false_iff, and_self,
        if_true, List.length_cons]
      have hrec := ih (nextId + 1) (bumpFirstAvailable (L : Int) ws)
        (pls ++ [create_pipeline_object nextId pv])
        (bumpFirstAvailable_ne_nil _ ws hws)
        (fun i hi => hcap i (List.mem_cons_of_mem _ hi))
      have hspare := bumpFirstAvailable_spare L ws hex
      omega

/-- C10: in a Dispatcher Tick with a non-empty worker snapshot, each admission
optimistically increments exactly one below-cap worker's in-memory count
(workers unchanged, total count up by one), and consequently, when all
schedule caps equal `L`, the number of admissions of the tick never exceeds
the snapshot's total spare capacity — the sum over workers of `L` minus the
worker's snapshotted count. -/
theorem c10_single_tick_capacity_bound (resolve : QueueItem → Option Nat)
    (now : Int) (active : List (Nat × List String)) (queue : List QueueItem)
    (pipelines : List Pipeline) (nextId : Nat) (L : Nat)
    (hws : countRunningPerWorker active ≠ [])
    (hcap : ∀ i ∈ queuedItems queue, ∀ sch, i.schedule = some sch →
        sch.max_concurrent_per_worker = (L : Int)) :
    (∀ ws : List (Nat × Nat), (∃ wc ∈ ws, (wc.2 : Int) < (L : Int)) →
        (bumpFirstAvailable (L : Int) ws).map Prod.fst = ws.map Prod.fst ∧
        ((bumpFirstAvailable (L : Int) ws).map Prod.snd).sum
          = (ws.map Prod.snd).sum + 1)
    ∧ (dispatch_queued_pipelines resolve now active queue pipelines
        nextId).accepted.length ≤ spareCapacity L (countRunningPerWorker active) :=
  ⟨fun ws h => bumpFirstAvailable_fst_and_sum L ws h,
   dispatchLoop_capacity_bound resolve now L (queuedItems queue) nextId
     (countRunningPerWorker active) pipelines hws hcap⟩

theorem c10_single_tick_capacity_bound_witness :
    (countRunningPerWorker sampleIdleActive ≠ [] ∧
     spareCapacity 1 (countRunningPerWorker sampleIdleActive) = 1) ∧
    (dispatch_queued_pipelines (fun _ => some 1) 0 sampleIdleActive
        [sampleItem1, sampleItem2] [] 100).accepted.length ≤
      spareCapacity 1 (countRunningPerWorker sampleIdleActive) :=
  ⟨⟨by decide, by decide⟩,
   (c10_single_tick_capacity_bound (fun _ => some 1) 0 sampleIdleActive
      [sampleItem1, sampleItem2] [] 100 1 (by decide) (by decide)).2⟩

/-! ## Pipeline status transitions and stop/cleanup
(src/aist/utils/pipeline.py and src/dojo/aist/utils/pipeline.py) -/

/-- An `AISTPipeline` row restricted to the fields touched by the status
utilities.  `updated` is Django's auto-now column, modelled as a counter
bumped whenever a save lists it in `update_fields`. -/
structure PipelineRow where
  status : AISTStatus
  started : Bool
  run_task_id : Option Nat
  watch_dedup_task_id : Option Nat
  updated : Nat
deriving Repr, DecidableEq

/-- Django `obj.save(update_fields=fields)`: copy only the listed columns from
the in-memory object `mem` to the stored row `db` (unlisted columns keep their
stored value). -/
def saveFields (mem db : PipelineRow) (fields : List String) : PipelineRow :=
  { status := if "status" ∈ fields then mem.status else db.status,
    started := if "started" ∈ fields then mem.started else db.started,
    run_task_id := if "run_task_id" ∈ fields then mem.run_task_id else db.run_task_id,
    watch_dedup_task_id :=
      if "watch_dedup_task_id" ∈ fields then mem.watch_dedup_task_id
      else db.watch_dedup_task_id,
    updated := if "updated" ∈ fields then db.updated + 1 else db.updated }

/-- The notifications sent (via `transaction.on_commit`) by the status
utilities: the `pipeline_status_changed` and `pipeline_finished` signals. -/
inductive Notif where
  | pipeline_status_changed (old_status new_status : AISTStatus)
  | pipeline_finished
deriving Repr, DecidableEq

namespace Aist

/-- `set_pipeline_status` (src/aist/utils/pipeline.py lines 39-61): no-op when
the status is unchanged; otherwise persist `status`, `updated` and any extra
fields and register a `pipeline_status_changed` notification.  Returns the
in-memory object, the stored row, the notifications, and the `bool` result. -/
def set_pipeline_status (mem db : PipelineRow) (new_status : AISTStatus)
    (update_fields_extra : List String) :
    PipelineRow × PipelineRow × List Notif × Bool :=
  let old_status := mem.status
  if old_status = new_status then (mem, db, [], false)
  else
    let mem2 := { mem with status := new_status }
    let db2 := saveFields mem2 db ("status" :: "updated" :: update_fields_extra)
    (mem2, db2, [Notif.pipeline_status_changed old_status new_status], true)

/-- `finish_pipeline` (src/aist/utils/pipeline.py lines 64-69): delegates to
`set_pipeline_status FINISHED`, then unconditionally registers
`pipeline_finished` on commit. -/
def finish_pipeline (mem db : PipelineRow) : PipelineRow × PipelineRow × List Notif :=
  let r := set_pipeline_status mem db AISTStatus.FINISHED []
  (r.1, r.2.1, r.2.2.1 ++ [Notif.pipeline_finished])

/-- `stop_pipeline` (src/aist/utils/pipeline.py lines 94-111): container
teardown and the two task revocations are external effects that do not touch
the row; the in-memory handles are set to `None` and `finish_pipeline` runs. -/
def stop_pipeline (mem db : PipelineRow) : PipelineRow × PipelineRow × List Notif :=
  let mem2 := { mem with run_task_id := none, watch_dedup_task_id := none }
  finish_pipeline mem2 db

end Aist

namespace DojoAist

/-- `finish_pipeline` (src/dojo/aist/utils/pipeline.py lines 39-45): this
variant assigns `FINISHED` and saves `status`/`updated` unconditionally (no
equal-status short-circuit) and always registers `pipeline_finished`. -/
def finish_pipeline (mem db : PipelineRow) : PipelineRow × PipelineRow × List Notif :=
  let mem2 := { mem with status := AISTStatus.FINISHED }
  let db2 := saveFields mem2 db ["status", "updated"]
  (mem2, db2, [Notif.pipeline_finished])

/-- `stop_pipeline` (src/dojo/aist/utils/pipeline.py lines 70-87): identical
to the aist-tree variant except that it ends in this tree's
`finish_pipeline`. -/
def stop_pipeline (mem db : PipelineRow) : PipelineRow × PipelineRow × List Notif :=
  let mem2 := { mem with run_task_id := none, watch_dedup_task_id := none }
  finish_pipeline mem2 db

end DojoAist

def sampleFinishedRow : PipelineRow :=
  { status := AISTStatus.FINISHED, started := false, run_task_id := none,
    watch_dedup_task_id := none, updated := 0 }

def sampleRunningRow : PipelineRow :=
  { status := AISTStatus.SAST_LAUNCHED, started := true, run_task_id := some 1,
    watch_dedup_task_id := some 2, updated := 0 }

/-- C5 fails on the code: forcing `FINISHED` on an already-`FINISHED` pipeline
via `finish_pipeline` is not free of side effects — the dojo-tree variant
re-saves the row (bumping `updated`) and registers a `pipeline_finished`
notification, and even the aist-tree variant (whose inner
`set_pipeline_status` is a no-op) still registers `pipeline_finished`. -/
theorem c5_idempotence_counterexample :
    (DojoAist.finish_pipeline sampleFinishedRow sampleFinishedRow).2.2 =
        [Notif.pipeline_finished] ∧
    (DojoAist.finish_pipeline sampleFinishedRow sampleFinishedRow).2.1.updated =
        sampleFinishedRow.updated + 1 ∧
    (Aist.finish_pipeline sampleFinishedRow sampleFinishedRow).2.2 =
        [Notif.pipeline_finished] := by
  refine ⟨rfl, rfl, rfl⟩

/-- C5 amended: `set_pipeline_status` with a status equal to the current one
is a genuine no-op — no write, no `updated` bump, no notification, result
`false` — but `finish_pipeline` is not: on an already-`FINISHED` pipeline the
aist-tree variant leaves the stored row untouched yet still registers
`pipeline_finished`, and the dojo-tree variant additionally re-saves the row,
bumping `updated`. -/
theorem c5_amended_set_status_idempotent (mem db : PipelineRow) (s : AISTStatus)
    (extra : List String) :
    (mem.status = s → Aist.set_pipeline_status mem db s extra = (mem, db, [], false))
    ∧ (mem.status = AISTStatus.FINISHED →
        (Aist.finish_pipeline mem db).2.1 = db ∧
        (Aist.finish_pipeline mem db).2.2 = [Notif.pipeline_finished])
    ∧ ((DojoAist.finish_pipeline mem db).2.2 = [Notif.pipeline_finished] ∧
       (DojoAist.finish_pipeline mem db).2.1.updated = db.updated + 1) := by
  refine ⟨?_, ?_, ?_, ?_⟩
  · intro h
    simp [Aist.set_pipeline_status, h]
  · intro h
    constructor <;> simp [Aist.finish_pipeline, Aist.set_pipeline_status, h]
  · rfl
  · simp [DojoAist.finish_pipeline, saveFields]

theorem c5_amended_set_status_idempotent_witness :
    sampleFinishedRow.status = AISTStatus.FINISHED ∧
    (Aist.set_pipeline_status sampleFinishedRow sampleFinishedRow
        AISTStatus.FINISHED [] = (sampleFinishedRow, sampleFinishedRow, [], false)) :=
  ⟨rfl, (c5_amended_set_status_idempotent sampleFinishedRow sampleFinishedRow
    AISTStatus.FINISHED []).1 rfl⟩

/-- C8 fails on the code: `stop_pipeline` clears the task handles only on the
in-memory object — the save performed by `finish_pipeline` lists only `status`
and `updated`, so the persisted row keeps its stored handles; and stopping an
already-`FINISHED` pipeline is not observation-free (it registers
`pipeline_finished`, and the dojo-tree variant re-saves the row). -/
theorem c8_stop_pipeline_counterexample :
    (DojoAist.stop_pipeline sampleRunningRow sampleRunningRow).2.1.run_task_id = some 1 ∧
    (DojoAist.stop_pipeline sampleRunningRow sampleRunningRow).2.1.watch_dedup_task_id =
        some 2 ∧
    (DojoAist.stop_pipeline sampleRunningRow sampleRunningRow).2.1.status =
        AISTStatus.FINISHED ∧
    (DojoAist.stop_pipeline sampleFinishedRow sampleFinishedRow).2.2 =
        [Notif.pipeline_finished] ∧
    (DojoAist.stop_pipeline sampleFinishedRow sampleFinishedRow).2.1.updated = 1 := by
  refine ⟨rfl, rfl, rfl, rfl, rfl⟩

/-- C8 amended: after `stop_pipeline` the in-memory object has both task
handles cleared and the persisted row has status `FINISHED`, but the persisted
row's handle columns are unchanged (the save lists only `status` and
`updated`), exactly one `pipeline_finished` notification is registered, and on
an already-`FINISHED` pipeline the aist-tree variant leaves the stored row
untouched while still registering `pipeline_finished`. -/
theorem c8_amended_stop_pipeline (mem db : PipelineRow) :
    ((DojoAist.stop_pipeline mem db).1.run_task_id = none ∧
     (DojoAist.stop_pipeline mem db).1.watch_dedup_task_id = none ∧
     (DojoAist.stop_pipeline mem db).2.1.status = AISTStatus.FINISHED ∧
     (DojoAist.stop_pipeline mem db).2.1.run_task_id = db.run_task_id ∧
     (DojoAist.stop_pipeline mem db).2.1.watch_dedup_task_id =
        db.watch_dedup_task_id ∧
     (DojoAist.stop_pipeline mem db).2.2 = [Notif.pipeline_finished])
    ∧ (mem.status = AISTStatus.FINISHED →
        (Aist.stop_pipeline mem db).2.1 = db ∧
        (Aist.stop_pipeline mem db).2.2 = [Notif.pipeline_finished]) := by
  constructor
  · refine ⟨rfl, rfl, ?_, ?_, ?_, rfl⟩ <;>
      simp [DojoAist.stop_pipeline, DojoAist.finish_pipeline, saveFields]
  · intro h
    constructor <;>
      simp [Aist.stop_pipeline, Aist.finish_pipeline, Aist.set_pipeline_status, h]

theorem c8_amended_stop_pipeline_witness :
    sampleFinishedRow.status = AISTStatus.FINISHED ∧
    ((Aist.stop_pipeline sampleFinishedRow sampleFinishedRow).2.1 =
        sampleFinishedRow ∧
     (Aist.stop_pipeline sampleFinishedRow sampleFinishedRow).2.2 =
        [Notif.pipeline_finished]) :=
  ⟨rfl, (c8_amended_stop_pipeline sampleFinishedRow sampleFinishedRow).2 rfl⟩

/-! ## Orchestration task — `run_sast_pipeline`
(src/dojo/aist/tasks/pipeline.py, lines 57-227) -/

/-- How the task ends: normal return, early `return` from the duplicate-start
guard, a propagated cooperative-cancellation signal (`celery.exceptions.Ignore`,
which `self.replace` also raises), or a re-raised exception. -/
inductive TaskExit where
  | completed
  | returned
  | ignored
  | raised
deriving Repr, DecidableEq

/-- Oracle for everything the task runs after the launch transition (lines
96-216: external build/scan, upload, fan-out hand-off): it either completes
normally, raises `Ignore` (including the `self.replace` chord hand-off of
line 212), or raises any other exception, in each case leaving the pipeline
row in some state `r`. -/
inductive BodyOutcome where
  | success (r : PipelineRow)
  | ignoreSignal (r : PipelineRow)
  | failure (r : PipelineRow)

/-- The launch transition under the first `select_for_update` lock (lines
89-90): record the start time (modelled by the `started` flag) and move to
`SAST_LAUNCHED`, persisting `started` alongside.  Returns the persisted row
and the notifications of the transition. -/
def launch_step (p : PipelineRow) : PipelineRow × List Notif :=
  let mem := { p with started := true }
  let r := Aist.set_pipeline_status mem p AISTStatus.SAST_LAUNCHED ["started"]
  (r.2.1, r.2.2.1)

/-- `run_sast_pipeline` reduced to its lock/guard/except control flow.
`p?` is the row-lock load of lines 76-82 (`none` models `DoesNotExist`: the
task's `pipeline` variable stays `None`, so the handler re-raises without
finishing).  Lines 85-87: the duplicate-start guard returns early when the
status is not `FINISHED`.  Lines 217-218: `Ignore` propagates untouched.
Lines 219-227: any other exception forces the pipeline to `FINISHED` via
`finish_pipeline` before re-raising. -/
def run_sast_pipeline (p? : Option PipelineRow)
    (body : PipelineRow → BodyOutcome) : Option PipelineRow × TaskExit :=
  match p? with
  | none => (none, TaskExit.raised)
  | some p =>
    if p.status ≠ AISTStatus.FINISHED then (some p, TaskExit.returned)
    else
      match body (launch_step p).1 with
      | BodyOutcome.success r => (some r, TaskExit.completed)
      | BodyOutcome.ignoreSignal r => (some r, TaskExit.ignored)
      | BodyOutcome.failure r =>
        (some (DojoAist.finish_pipeline r r).2.1, TaskExit.raised)

/-- C6: once the pipeline row is loaded and the run has started, any exception
other than the cooperative-cancellation signal escaping the task body forces
the pipeline to `FINISHED` before the exception is re-raised, whatever state
the body left the row in; the `Ignore` signal instead propagates untouched —
the failure-handling path does not run and the row is left exactly as the body
left it. -/
theorem c6_exception_forces_finished (p : PipelineRow)
    (body : PipelineRow → BodyOutcome) (r : PipelineRow)
    (hstart : p.status = AISTStatus.FINISHED) :
    (body (launch_step p).1 = BodyOutcome.failure r →
      (run_sast_pipeline (some p) body).2 = TaskExit.raised ∧
      ∃ q, (run_sast_pipeline (some p) body).1 = some q ∧
        q.status = AISTStatus.FINISHED)
    ∧ (body (launch_step p).1 = BodyOutcome.ignoreSignal r →
      run_sast_pipeline (some p) body = (some r, TaskExit.ignored)) := by
  constructor
  · intro hb
    simp only [run_sast_pipeline, hstart, ne_eq, not_true_eq_false, if_false, hb]
    refine ⟨trivial, _, rfl, ?_⟩
    simp [DojoAist.finish_pipeline, saveFields]
  · intro hb
    simp only [run_sast_pipeline, hstart, ne_eq, not_true_eq_false, if_false, hb]

theorem c6_exception_forces_finished_witness :
    ((fun _ => BodyOutcome.failure sampleRunningRow)
        (launch_step sampleFinishedRow).1 = BodyOutcome.failure sampleRunningRow ∧
     (run_sast_pipeline (some sampleFinishedRow)
        (fun _ => BodyOutcome.failure sampleRunningRow)).2 = TaskExit.raised ∧
     ∃ q, (run_sast_pipeline (some sampleFinishedRow)
        (fun _ => BodyOutcome.failure sampleRunningRow)).1 = some q ∧
        q.status = AISTStatus.FINISHED) ∧
    run_sast_pipeline (some sampleFinishedRow)
        (fun _ => BodyOutcome.ignoreSignal sampleRunningRow) =
      (some sampleRunningRow, TaskExit.ignored) :=
  ⟨⟨rfl,
    (c6_exception_forces_finished sampleFinishedRow
      (fun _ => BodyOutcome.failure sampleRunningRow) sampleRunningRow rfl).1 rfl⟩,
   (c6_exception_forces_finished sampleFinishedRow
      (fun _ => BodyOutcome.ignoreSignal sampleRunningRow) sampleRunningRow rfl).2 rfl⟩

/-- C7: under the row lock the task re-checks that the status is still the
pre-launch terminal state `FINISHED` (the status `create_pipeline_object`
gives every newly created pipeline); if another trigger has already advanced
it, the task returns with the row unmodified and without invoking any
external step — the outcome is independent of the body oracle. -/
theorem c7_duplicate_start_guard (p : PipelineRow)
    (body body2 : PipelineRow → BodyOutcome) (nid pv : Nat)
    (h : p.status ≠ AISTStatus.FINISHED) :
    run_sast_pipeline (some p) body = (some p, TaskExit.returned)
    ∧ run_sast_pipeline (some p) body2 = run_sast_pipeline (some p) body
    ∧ (create_pipeline_object nid pv).status = AISTStatus.FINISHED := by
  refine ⟨?_, ?_, rfl⟩
  · simp only [run_sast_pipeline, if_pos h]
  · simp only [run_sast_pipeline, if_pos h]

theorem c7_duplicate_start_guard_witness :
    sampleRunningRow.status ≠ AISTStatus.FINISHED ∧
    run_sast_pipeline (some sampleRunningRow)
        (fun _ => BodyOutcome.failure sampleFinishedRow) =
      (some sampleRunningRow, TaskExit.returned) :=
  ⟨by decide,
   (c7_duplicate_start_guard sampleRunningRow
      (fun _ => BodyOutcome.failure sampleFinishedRow)
      (fun _ => BodyOutcome.success sampleFinishedRow) 0 0 (by decide)).1⟩
